import Mathlib

/-!
Verification development for the `perf-aero-sim` repository
(`aircraft_preformance` package): a point-mass climb/descent trajectory
simulator integrated with the explicit Euler method.

The Python source works on `pint` quantities whose magnitudes are floating
point numbers; the embedding works on real numbers, with magnitudes taken in
the unit each source function computes in (SI base units unless noted).
`np.round(x, n)` is modelled by `roundd n x` below; the half-way tie-breaking
rule differs (numpy rounds halves to even, `round` rounds halves up), and no
statement in this file depends on a half-way case.

The standard-atmosphere lookup (the `ambiance.Atmosphere` class) is an
external collaborator of the repository; it is embedded as an abstract
structure `Atmos` of real-valued functions of altitude, together with the
mild validity facts (`ValidAtm`) used by the theorems.
-/

namespace PerfAero

noncomputable section

/-- Rounding of a real number to `n` decimal places, the model of
`np.round(x, n)` applied to a magnitude. -/
def roundd (n : ℕ) (x : ℝ) : ℝ := (round (x * 10 ^ n) : ℤ) / 10 ^ n

/-- The atmosphere lookup: an external collaborator of the repository,
`altitude ↦ (density, pressure, temperature, speed of sound)` in SI units. -/
structure Atmos where
  density : ℝ → ℝ
  pressure : ℝ → ℝ
  temperature : ℝ → ℝ
  speed_of_sound : ℝ → ℝ

/-- Validity facts about an atmosphere over its defined altitude range:
all four properties are positive and pressure never exceeds twice the sea-level
pressure (the International Standard Atmosphere satisfies these over its
whole defined range, −5004 m to 81020 m). -/
def ValidAtm (atm : Atmos) : Prop :=
  (∀ h, 0 < atm.density h) ∧ (∀ h, 0 < atm.pressure h) ∧
  (∀ h, 0 < atm.temperature h) ∧ (∀ h, 0 < atm.speed_of_sound h) ∧
  (∀ h, atm.pressure h ≤ 2 * atm.pressure 0)

/-- Ratio of specific heats of dry air used throughout `airspeed.py`. -/
def gammaAir : ℝ := 1.4

/-- The exponent `g_r = γ/(γ−1)` of `airspeed.py`. -/
def g_r : ℝ := gammaAir / (gammaAir - 1)

/-- The compressible pitot relation of `cas2tas` before the final rounding:
`p1 = 1 + (2 g_r)⁻¹ (ρ_sl/P_sl) v²`, `p2 = p1^g_r`,
`p3 = (1 + (P_sl/P_h)(p2−1))^(1/g_r)`, `v_tas = sqrt(2 g_r (P_h/ρ_h)(p3−1))`. -/
def cas2tas_core (atm : Atmos) (v_cas h : ℝ) : ℝ :=
  let rho_at_h := atm.density h
  let rho_at_sl := atm.density 0
  let p_at_h := atm.pressure h
  let p_at_sl := atm.pressure 0
  let p1 := 1 + (2 * g_r)⁻¹ * (rho_at_sl / p_at_sl) * v_cas ^ 2
  let p2 := p1 ^ g_r
  let p3 := (1 + (p_at_sl / p_at_h) * (p2 - 1)) ^ (1 / g_r)
  Real.sqrt (2 * g_r * (p_at_h / rho_at_h) * (p3 - 1))

/-- `cas2tas` of `helpers/airspeed.py`: calibrated airspeed to true airspeed,
rounded to two decimal places (m/s). -/
def cas2tas (atm : Atmos) (v_cas h : ℝ) : ℝ := roundd 2 (cas2tas_core atm v_cas h)

/-- `cas2mach` of `helpers/airspeed.py`: the (rounded) true airspeed divided
by the local speed of sound, rounded to three decimal places. -/
def cas2mach (atm : Atmos) (v_cas h : ℝ) : ℝ :=
  roundd 3 (cas2tas atm v_cas h / atm.speed_of_sound h)

/-- The inverse pitot relation of `tas2cas` before the final rounding:
`p1 = 1 + (2 g_r)⁻¹ (ρ_h/P_h) v²`, `p2 = p1^g_r − 1`,
`p3 = ((P_h/P_sl) p2 + 1)^(1/g_r)`, `v_cas = sqrt(2 g_r (P_sl/ρ_sl)(p3−1))`. -/
def tas2cas_core (atm : Atmos) (v_tas h : ℝ) : ℝ :=
  let rho_at_h := atm.density h
  let rho_at_sl := atm.density 0
  let p_at_h := atm.pressure h
  let p_at_sl := atm.pressure 0
  let p1 := 1 + (2 * g_r)⁻¹ * (rho_at_h / p_at_h) * v_tas ^ 2
  let p2 := p1 ^ g_r - 1
  let p3 := ((p_at_h / p_at_sl) * p2 + 1) ^ (1 / g_r)
  let p4 := p3 - 1
  Real.sqrt (2 * g_r * (p_at_sl / rho_at_sl) * p4)

/-- `tas2cas` of `helpers/airspeed.py`: true airspeed to calibrated airspeed,
rounded to two decimal places (m/s). -/
def tas2cas (atm : Atmos) (v_tas h : ℝ) : ℝ := roundd 2 (tas2cas_core atm v_tas h)

/-- `tas2mach` of `helpers/airspeed.py`: true airspeed divided by the local
speed of sound, rounded to three decimal places. -/
def tas2mach (atm : Atmos) (v_tas h : ℝ) : ℝ :=
  roundd 3 (v_tas / atm.speed_of_sound h)

/-- `Grav_const` of `const.py`: gravitational acceleration, m/s². -/
def Grav_const : ℝ := 9.80665

/-- `S` of `const.py`: wing area, m². -/
def S : ℝ := 500

/-- `MTOW` of `const.py`: maximum take-off weight, N. -/
def MTOW : ℝ := 3600000

/-- `Max_Thrust_SE_SL` of `const.py`: maximum single-engine sea-level
thrust, in N (270 kN). -/
def Max_Thrust_SE_SL : ℝ := 270000

/-- `BPR` of `const.py`: the engine bypass ratio. -/
def BPR : ℝ := 5

/-- `c_l_steady` of `helpers/aerodynamics.py`: lift coefficient of steady
flight (lift = weight), `2·W/(ρ_h·S·v_tas²)`, rounded to 4 decimals. -/
def c_l_steady (atm : Atmos) (v_cas altitude weight wing_area : ℝ) : ℝ :=
  roundd 4 (2 * weight / (atm.density altitude * wing_area * cas2tas atm v_cas altitude ^ 2))

/-- Modelled from the spec: the module `sim_climb_descent/aerodynamic_char.py`
is imported by `simulation.py` but is not among the sources.  The spec
describes its `drag` as a parabolic drag polar `C_D = c_d0 + k·C_L²` with
unspecified zero-lift and induced-drag coefficients, and its
`aoa_steady_staight` and `gamma_steady_straight` as steady-state trim
solutions used only for initialisation; the coefficients and the two trim
functions are therefore kept as parameters of the model. -/
structure AeroChar where
  c_d0 : ℝ
  k : ℝ
  aoa_steady_staight : ℝ → ℝ → ℝ → ℝ → ℝ
  gamma_steady_straight : ℝ → ℝ → ℝ → ℝ

/-- Modelled from the spec: `drag` of the missing `aerodynamic_char.py` —
`D = (1/2)·ρ_h·S·v_tas²·C_D` with `C_D = c_d0 + k·C_L²` (parabolic polar),
`v_tas` obtained from the CAS input via `cas2tas`. -/
def drag (ae : AeroChar) (atm : Atmos) (v_cas h c_l wing_area : ℝ) : ℝ :=
  1 / 2 * atm.density h * wing_area * cas2tas atm v_cas h ^ 2 * (ae.c_d0 + ae.k * c_l ^ 2)

/-- The `A(δ)` polynomial of `max_thrust_model` in `thrust_model.py`. -/
def aCoefPoly (d : ℝ) : ℝ := -0.4327 * d ^ 2 + 1.3855 * d + 0.0472

/-- The `X(δ)` polynomial of `max_thrust_model` in `thrust_model.py`. -/
def xCoefPoly (d : ℝ) : ℝ := 0.9106 * d ^ 3 - 1.7736 * d ^ 2 + 1.8697 * d

/-- The `Z(δ)` polynomial of `max_thrust_model` in `thrust_model.py`. -/
def zCoefPoly (d : ℝ) : ℝ := 0.1377 * d ^ 3 - 0.4374 * d ^ 2 + 1.3003 * d

/-- `max_thrust_model` of `thrust_model.py`: empirical altitude/Mach thrust
lapse, `(A − Z·mach·0.377(1+BPR)/sqrt(G0(1+0.82·BPR)) +
(0.23+0.19·sqrt BPR)·X·mach²)·thrust_max_sl` with `G0 = 0.6375+0.0604·BPR`
and `A, X, Z` evaluated at the pressure ratio `δ = P_h/P_sl`; rounded to 4
decimals in the unit of `thrust_max_sl`. -/
def max_thrust_model (atm : Atmos) (thrust_max_sl bpr h mach : ℝ) : ℝ :=
  roundd 4 ((aCoefPoly (atm.pressure h / atm.pressure 0)
    - zCoefPoly (atm.pressure h / atm.pressure 0) * mach * (0.377 * (1 + bpr)) /
        Real.sqrt ((0.6375 + 0.0604 * bpr) * (1 + 0.82 * bpr))
    + (0.23 + 0.19 * Real.sqrt bpr) * xCoefPoly (atm.pressure h / atm.pressure 0) * mach ^ 2)
    * thrust_max_sl)

/-- `fuel_flow` of `thrust_model.py`: thrust-specific fuel consumption
`c_t = 11·(1+mach)·sqrt(T_h/T_sl)` (mg/s per N) times the thrust (N),
rounded to 4 decimals; the magnitude is in mg/s. -/
def fuel_flow (atm : Atmos) (thrust mach h : ℝ) : ℝ :=
  roundd 4 (11 * (1 + mach) * Real.sqrt (atm.temperature h / atm.temperature 0) * thrust)

/-- `inst_dv_dt` of `eom.py`: `(g/W)·(T − D − W·sin γ)`, rounded to 4
decimals (m/s²). -/
def inst_dv_dt (thrust dragv w gamma : ℝ) : ℝ :=
  roundd 4 (Grav_const / w * (thrust - dragv - w * Real.sin gamma))

/-- `inst_dgamma_dt` of `eom.py`: `(g/W)·(1/v_tas)·(L − W)` (rad/s), not
rounded. -/
def inst_dgamma_dt (lift w v_tas : ℝ) : ℝ :=
  Grav_const / w * (1 / v_tas) * (lift - w)

/-- `pilot_pitch_control` of `pilot_control.py`: proportional pitch command
from the airspeed error, switching target between the reference IAS and the
CAS equivalent of the cruise Mach. -/
def pilot_pitch_control (atm : Atmos)
    (k_p theta_trim v_ref v_ias h cruise_mach : ℝ) (phase : String) : ℝ :=
  (if phase = "climb" then
      if roundd 2 (cas2mach atm v_ias h) < cruise_mach then v_ias - v_ref
      else v_ias - tas2cas atm (cruise_mach * atm.speed_of_sound h) h
    else
      if roundd 0 v_ias < v_ref then
        v_ias - tas2cas atm (cruise_mach * atm.speed_of_sound h) h
      else v_ias - v_ref)
  * k_p + theta_trim

/-- Initial conditions `ics` passed to the simulations: horizontal position,
altitude, weight and indicated airspeed (`v_ias` is unused by the descent
approach, which takes its speed from `v_ref`). -/
structure Ics where
  x : ℝ
  h : ℝ
  w : ℝ
  v_ias : ℝ

/-- The integrator state of `simulation_euler`, one row of the result
dictionary.  Magnitudes are SI base units except `m_f_burnt`, which is the
fuel-mass magnitude in mg (the unit `fuel_flow·dt` is computed in; the
source stores the same quantity as a pint quantity created in g). -/
structure SimState where
  t : ℝ
  x : ℝ
  h : ℝ
  w : ℝ
  m_f_burnt : ℝ
  v_tas : ℝ
  v_ias : ℝ
  mach : ℝ
  gamma : ℝ
  aoa : ℝ
  theta : ℝ

/-- The parameters of a `simulation_euler` run: the atmosphere collaborator,
the (spec-modelled) aerodynamic characteristics, the pilot control model and
the scalar arguments of the function. -/
structure SimParams where
  atm : Atmos
  aero : AeroChar
  pilot_control_model : ℝ → ℝ → ℝ → ℝ → ℝ → ℝ → String → ℝ
  k_p : ℝ
  v_ref : ℝ
  cruise_mach : ℝ
  phase : String
  time_step : ℝ

/-- Thrust application percentage of `simulation.py`: 95% of max thrust for
the climb phase, 5% for every other phase string. -/
def thrust_app_perc (phase : String) : ℝ := if phase = "climb" then 0.95 else 0.05

/-- Pitch attitude computed by the control model at the start of a step. -/
def eulerTheta (p : SimParams) (theta_trim : ℝ) (s : SimState) : ℝ :=
  p.pilot_control_model p.k_p theta_trim p.v_ref s.v_ias s.h p.cruise_mach p.phase

/-- Angle of attack at the start of a step: `theta − gamma`. -/
def eulerAoa (p : SimParams) (theta_trim : ℝ) (s : SimState) : ℝ :=
  eulerTheta p theta_trim s - s.gamma

/-- Small-angle lift coefficient of the step loop: `0.03 + 4.4·aoa`. -/
def eulerCl (p : SimParams) (theta_trim : ℝ) (s : SimState) : ℝ :=
  0.03 + 4.4 * eulerAoa p theta_trim s

/-- Instantaneous lift of the step loop: `(1/2)·C_L·ρ_h·S·v_tas²`. -/
def eulerLift (p : SimParams) (theta_trim : ℝ) (s : SimState) : ℝ :=
  1 / 2 * eulerCl p theta_trim s * p.atm.density s.h * S * s.v_tas ^ 2

/-- Instantaneous total thrust of the step loop: the four-engine maximum
thrust at the current altitude and Mach, times the phase percentage. -/
def eulerThrust (p : SimParams) (s : SimState) : ℝ :=
  4 * max_thrust_model p.atm Max_Thrust_SE_SL BPR s.h s.mach * thrust_app_perc p.phase

/-- Instantaneous drag of the step loop. -/
def eulerDrag (p : SimParams) (theta_trim : ℝ) (s : SimState) : ℝ :=
  drag p.aero p.atm s.v_ias s.h (eulerCl p theta_trim s) S

/-- Fuel flow (mg/s) evaluated at the start of a step. -/
def eulerFF (p : SimParams) (s : SimState) : ℝ :=
  fuel_flow p.atm (eulerThrust p s) s.mach s.h

/-- Fuel-mass change `dm = −fuel_flow·dt` of one step (mg). -/
def eulerDm (p : SimParams) (s : SimState) : ℝ := -eulerFF p s * p.time_step

/-- Altitude after one step: `h + v_tas·sin γ·dt`. -/
def eulerNewH (p : SimParams) (s : SimState) : ℝ :=
  s.h + s.v_tas * Real.sin s.gamma * p.time_step

/-- True airspeed after one step: Euler update by `inst_dv_dt·dt`. -/
def eulerNewVtas (p : SimParams) (theta_trim : ℝ) (s : SimState) : ℝ :=
  s.v_tas + inst_dv_dt (eulerThrust p s) (eulerDrag p theta_trim s) s.w s.gamma * p.time_step

/-- One iteration of the `while` loop of `simulation_euler`: evaluate the
control law and the forces on the state at the start of the step, apply all
Euler deltas, then recompute IAS and Mach from the updated TAS and altitude.
The weight update is `dw = dm·Grav_const` with `dm` in mg, hence the
mg→kg factor `1/1000000` on the N-magnitude of `w`. -/
def eulerStep (p : SimParams) (theta_trim : ℝ) (s : SimState) : SimState where
  t := s.t + p.time_step
  x := s.x + s.v_tas * Real.cos s.gamma * p.time_step
  h := eulerNewH p s
  w := s.w + eulerDm p s * Grav_const / 1000000
  m_f_burnt := s.m_f_burnt + |eulerDm p s|
  v_tas := eulerNewVtas p theta_trim s
  v_ias := tas2cas p.atm (eulerNewVtas p theta_trim s) (eulerNewH p s)
  mach := cas2mach p.atm (tas2cas p.atm (eulerNewVtas p theta_trim s) (eulerNewH p s)) (eulerNewH p s)
  gamma := s.gamma + inst_dgamma_dt (eulerLift p theta_trim s) s.w s.v_tas * p.time_step
  aoa := eulerAoa p theta_trim s
  theta := eulerTheta p theta_trim s

/-- State initialisation of `simulation_euler` from the initial conditions:
TAS and Mach from the IAS (IAS is taken as CAS), trim attitude from the
steady-state angle of attack and flight-path angle. -/
def eulerInit (p : SimParams) (ics : Ics) : SimState :=
  let mach := cas2mach p.atm ics.v_ias ics.h
  let aoa := p.aero.aoa_steady_staight ics.v_ias ics.h ics.w S
  let gamma := p.aero.gamma_steady_straight
    (4 * max_thrust_model p.atm Max_Thrust_SE_SL BPR ics.h mach * thrust_app_perc p.phase)
    (drag p.aero p.atm ics.v_ias ics.h (c_l_steady p.atm ics.v_ias ics.h ics.w S) S)
    ics.w
  { t := 0
    x := ics.x
    h := ics.h
    w := ics.w
    m_f_burnt := 0
    v_tas := cas2tas p.atm ics.v_ias ics.h
    v_ias := ics.v_ias
    mach := mach
    gamma := gamma
    aoa := aoa
    theta := aoa + gamma }

/-- The trim pitch attitude `theta_trim = aoa + gamma` computed once before
the loop of `simulation_euler`. -/
def eulerTrim (p : SimParams) (ics : Ics) : ℝ := (eulerInit p ics).theta

/-- The `while True` loop of `simulation_euler`, indexed by a step budget
`fuel` that the source loop does not have: the loop body matches on the
phase string and breaks only when the climb run reaches 10000 m or the
descent run reaches 1000 m, returning the state appended last; `none` means
the loop was still running after `fuel` iterations. -/
def eulerLoop (p : SimParams) (theta_trim : ℝ) : ℕ → SimState → Option SimState
  | 0, _ => none
  | fuel + 1, s =>
    let s' := eulerStep p theta_trim s
    if p.phase = "climb" then
      if 10000 ≤ s'.h then some s' else eulerLoop p theta_trim fuel s'
    else if p.phase = "descent" then
      if s'.h ≤ 1000 then some s' else eulerLoop p theta_trim fuel s'
    else eulerLoop p theta_trim fuel s'

/-- `simulation_euler` of `simulation.py`, as the final state of the
trajectory (the state the loop appends last before breaking), with a step
budget `fuel` standing for the unbounded source loop. -/
def simulation_euler (p : SimParams) (ics : Ics) (fuel : ℕ) : Option SimState :=
  eulerLoop p (eulerTrim p ics) fuel (eulerInit p ics)

/-- The stop condition of the `match` statement in `simulation_euler`. -/
def eulerStop (phase : String) (s : SimState) : Prop :=
  (phase = "climb" ∧ 10000 ≤ s.h) ∨ (phase = "descent" ∧ s.h ≤ 1000)

/-- Termination of a `simulation_euler` run: some step budget suffices for
the source loop to break. -/
def EulerTerminates (p : SimParams) (theta_trim : ℝ) (s : SimState) : Prop :=
  ∃ fuel sf, eulerLoop p theta_trim fuel s = some sf

/-- The parameters of a `simulation_descent_approach_euler` run. The
glideslope angle is carried in radians (the source converts its input with
`.to("rad")` before negating it). -/
structure AppParams where
  atm : Atmos
  aero : AeroChar
  v_ref : ℝ
  glideslope_angle : ℝ
  screen_h : ℝ
  time_step : ℝ

/-- The integrator state of `simulation_descent_approach_euler`; `m_f_burnt`
is in mg as in `SimState`. -/
structure AppState where
  t : ℝ
  x : ℝ
  h : ℝ
  w : ℝ
  m_f_burnt : ℝ
  v_tas : ℝ
  mach : ℝ
  gamma : ℝ

/-- One row of the `t/x/h/v_ias/mach/fuel_burn` result lists of
`simulation_descent_approach_euler`. -/
structure AppRec where
  t : ℝ
  x : ℝ
  h : ℝ
  v_ias : ℝ
  mach : ℝ
  fuel_burn : ℝ

/-- State initialisation of `simulation_descent_approach_euler`: TAS is set
to the reference speed, gamma to the negated glideslope angle. -/
def appInit (p : AppParams) (ics : Ics) : AppState where
  t := 0
  x := ics.x
  h := ics.h
  w := ics.w
  m_f_burnt := 0
  v_tas := p.v_ref
  mach := tas2mach p.atm p.v_ref ics.h
  gamma := -p.glideslope_angle

/-- The thrust setting solved from the force balance of steady straight
powered glide flight in the approach loop: `thrust = drag + W·sin γ`. -/
def appThrust (p : AppParams) (s : AppState) : ℝ :=
  drag p.aero p.atm (tas2cas p.atm s.v_tas s.h) s.h
    (c_l_steady p.atm (tas2cas p.atm s.v_tas s.h) s.h s.w S) S
  + s.w * Real.sin s.gamma

/-- Fuel-mass change `dm = −fuel_flow·dt` of one approach step (mg). -/
def appDm (p : AppParams) (s : AppState) : ℝ :=
  -fuel_flow p.atm (appThrust p s) s.mach s.h * p.time_step

/-- Altitude after one approach step. -/
def appNewH (p : AppParams) (s : AppState) : ℝ :=
  s.h + s.v_tas * Real.sin s.gamma * p.time_step

/-- One iteration of the `while` loop of
`simulation_descent_approach_euler`: the true airspeed and the flight-path
angle are left untouched; altitude, position, fuel, weight and time advance,
and the Mach is recomputed from the unchanged TAS at the new altitude. -/
def approachStep (p : AppParams) (s : AppState) : AppState where
  t := s.t + p.time_step
  x := s.x + s.v_tas * Real.cos s.gamma * p.time_step
  h := appNewH p s
  w := s.w + appDm p s * Grav_const / 1000000
  m_f_burnt := s.m_f_burnt + |appDm p s|
  v_tas := s.v_tas
  mach := tas2mach p.atm s.v_tas (appNewH p s)
  gamma := s.gamma

/-- The result row recorded for an approach state: IAS is computed from the
TAS at the state's own altitude. -/
def approachRec (p : AppParams) (s : AppState) : AppRec where
  t := s.t
  x := s.x
  h := s.h
  v_ias := tas2cas p.atm s.v_tas s.h
  mach := s.mach
  fuel_burn := s.m_f_burnt

/-- The `while True` loop of `simulation_descent_approach_euler`, indexed by
a step budget: after each step the loop breaks — recording nothing — as soon
as the updated altitude is at or below the screen height, and otherwise
appends the updated state's row and continues. -/
def approachLoop (p : AppParams) : ℕ → AppState → Option (List AppRec)
  | 0, _ => none
  | fuel + 1, s =>
    let s' := approachStep p s
    if s'.h ≤ p.screen_h then some []
    else (approachLoop p fuel s').map (approachRec p s' :: ·)

/-- `simulation_descent_approach_euler` of `simulation.py`, as the list of
recorded result rows (initial row first), with a step budget standing for
the unbounded source loop. -/
def simulation_descent_approach_euler (p : AppParams) (ics : Ics) (fuel : ℕ) :
    Option (List AppRec) :=
  (approachLoop p fuel (appInit p ics)).map (approachRec p (appInit p ics) :: ·)

end

/-- The observable effects `load_or_run_simulation` can perform after its
phase check: reading the cached results file, or running a simulation. -/
inductive SimEffect where
  | fileRead : SimEffect
  | simulationRun : SimEffect
deriving DecidableEq

/-- `load_or_run_simulation` of `simulation.py`, with the file system and
the two possible result producers abstracted: the phase is validated first,
and an invalid phase raises a `ValueError` (modelled as `Except.error`, with
the source's message text) before any file access or simulation runs — the
effect trace of that branch is empty. -/
def load_or_run_simulation {α : Type} (phase : String) (results_file_exists : Bool)
    (loaded_result simulated_result : α) : Except String α × List SimEffect :=
  if phase ∉ ["climb", "descent", "descent_approach"] then
    (Except.error "Phase must be either climb, descent, or descent_approach.", [])
  else if results_file_exists then
    (Except.ok loaded_result, [SimEffect.fileRead])
  else
    (Except.ok simulated_result, [SimEffect.simulationRun])

noncomputable section

/-- A constant test atmosphere (density 1 kg/m³, pressure 100 kPa,
temperature 288 K, speed of sound 340 m/s at every altitude), used to
evaluate the model at concrete inputs. -/
def stdAtmos : Atmos where
  density _ := 1
  pressure _ := 100000
  temperature _ := 288
  speed_of_sound _ := 340

/-- A concrete instance of the spec-modelled aerodynamic characteristics:
zero-lift drag coefficient 0.02, induced-drag factor 0.02, trivial trim
functions. -/
def testAero : AeroChar where
  c_d0 := 0.02
  k := 0.02
  aoa_steady_staight _ _ _ _ := 0
  gamma_steady_straight _ _ _ := 0

/-- A pilot control model that always commands pitch 0, usable where the
control input is irrelevant. -/
def zeroPilot : ℝ → ℝ → ℝ → ℝ → ℝ → ℝ → String → ℝ := fun _ _ _ _ _ _ _ => 0

/-- An all-zero integrator state. -/
def zeroState : SimState where
  t := 0
  x := 0
  h := 0
  w := 0
  m_f_burnt := 0
  v_tas := 0
  v_ias := 0
  mach := 0
  gamma := 0
  aoa := 0
  theta := 0

/-- An all-zero approach state. -/
def zeroAppState : AppState where
  t := 0
  x := 0
  h := 0
  w := 0
  m_f_burnt := 0
  v_tas := 0
  mach := 0
  gamma := 0

/-- Climb parameters with a zero time step, under which the Euler step
leaves the altitude unchanged. -/
def climbZeroDtParams : SimParams where
  atm := stdAtmos
  aero := testAero
  pilot_control_model := zeroPilot
  k_p := 0
  v_ref := 0
  cruise_mach := 0
  phase := "climb"
  time_step := 0

/-- Euler simulation parameters whose phase string is the one
`simulation_euler` does not recognise in its stop condition. -/
def approachPhaseParams : SimParams where
  atm := stdAtmos
  aero := testAero
  pilot_control_model := zeroPilot
  k_p := 0
  v_ref := 0
  cruise_mach := 0
  phase := "descent_approach"
  time_step := 1

/-- A generic valid parameter record for per-step Euler statements. -/
def stepParams : SimParams where
  atm := stdAtmos
  aero := testAero
  pilot_control_model := zeroPilot
  k_p := 0.002
  v_ref := 130
  cruise_mach := 0.85
  phase := "climb"
  time_step := 1

/-- Descent-approach parameters with a 30° (π/6 rad) glideslope at
reference speed 70 m/s: a valid input on which the force-balance thrust of
the first step is negative. -/
def steepAppParams : AppParams where
  atm := stdAtmos
  aero := testAero
  v_ref := 70
  glideslope_angle := Real.pi / 6
  screen_h := 10
  time_step := 1

/-- Initial conditions for the steep approach: 1000 m altitude and a
2 450 000 N weight (below MTOW). -/
def steepAppIcs : Ics where
  x := 0
  h := 1000
  w := 2450000
  v_ias := 70

/-- Descent-approach parameters used to exhibit a one-step terminating run:
reference speed 4 m/s down a π/6 glideslope towards a 10 m screen height. -/
def shortAppParams : AppParams where
  atm := stdAtmos
  aero := testAero
  v_ref := 4
  glideslope_angle := Real.pi / 6
  screen_h := 10
  time_step := 1

/-- Initial conditions one metre above the screen height of
`shortAppParams`, so the first step descends through it. -/
def shortAppIcs : Ics where
  x := 0
  h := 11
  w := 100
  v_ias := 0

/-- A climb state already at the 10000 m threshold, used with a zero time
step to exhibit a terminating `simulation_euler` run. -/
def thresholdState : SimState where
  t := 0
  x := 0
  h := 10000
  w := 3000000
  m_f_burnt := 0
  v_tas := 200
  v_ias := 150
  mach := 0.5
  gamma := 0
  aoa := 0
  theta := 0

end

/-! ### Proofs -/

lemma g_r_eq : g_r = 7 / 2 := by norm_num [g_r, gammaAir]

/-- Rounding to `n` decimals maps an integer real to itself. -/
lemma roundd_intCast (n : ℕ) (z : ℤ) : roundd n (z : ℝ) = (z : ℝ) := by
  have h : ((z : ℝ) * 10 ^ n) = ((z * 10 ^ n : ℤ) : ℝ) := by push_cast; ring
  rw [roundd, h, round_intCast]
  push_cast
  field_simp

/-- Rounding to `n` decimals preserves non-negativity. -/
lemma roundd_nonneg {x : ℝ} (n : ℕ) (hx : 0 ≤ x) : 0 ≤ roundd n x := by
  have h10 : (0:ℝ) < 10 ^ n := by positivity
  have hx' : (0:ℝ) ≤ x * 10 ^ n := by positivity
  have : (0:ℤ) ≤ round (x * 10 ^ n) := by
    rw [round_eq]
    exact Int.floor_nonneg.mpr (by linarith)
  rw [roundd]
  have : (0:ℝ) ≤ (round (x * 10 ^ n) : ℤ) := by exact_mod_cast this
  positivity

/-- Rounding to `n` decimals of a real that is at most `-1` is negative. -/
lemma roundd_neg_of_le_neg_one {x : ℝ} (n : ℕ) (hx : x ≤ -1) : roundd n x < 0 := by
  have h10 : (1:ℝ) ≤ 10 ^ n := one_le_pow₀ (by norm_num)
  have h10' : (0:ℝ) < 10 ^ n := by positivity
  have hle : x * 10 ^ n ≤ -1 := by nlinarith
  have hhalf : ⌊(-1 : ℝ) + 1 / 2⌋ = -1 := by
    rw [Int.floor_eq_iff]
    norm_num
  have hfl : round (x * 10 ^ n) ≤ -1 := by
    rw [round_eq]
    calc (⌊x * 10 ^ n + 1 / 2⌋ : ℤ) ≤ ⌊(-1 : ℝ) + 1 / 2⌋ := Int.floor_mono (by linarith)
    _ = -1 := hhalf
  have : ((round (x * 10 ^ n) : ℤ) : ℝ) ≤ -1 := by exact_mod_cast hfl
  rw [roundd]
  exact div_neg_of_neg_of_pos (by linarith) h10'

lemma g_r_pos : (0:ℝ) < g_r := by rw [g_r_eq]; norm_num

/-- The exact pitot relations are mutually inverse: `tas2cas_core` undoes
`cas2tas_core` whenever the atmospheric densities and pressures involved
are positive and the input speed is non-negative. -/
lemma tas2cas_core_cas2tas_core (atm : Atmos) (v h : ℝ) (hv : 0 ≤ v)
    (hd0 : 0 < atm.density 0) (hp0 : 0 < atm.pressure 0)
    (hdh : 0 < atm.density h) (hph : 0 < atm.pressure h) :
    tas2cas_core atm (cas2tas_core atm v h) h = v := by
  have hg : (0:ℝ) < g_r := g_r_pos
  have hgne : g_r ≠ 0 := ne_of_gt hg
  rw [cas2tas_core, tas2cas_core]
  set d0 := atm.density 0 with hd0'
  set P0 := atm.pressure 0 with hP0'
  set dh := atm.density h with hdh'
  set Ph := atm.pressure h with hPh'
  set p1 : ℝ := 1 + (2 * g_r)⁻¹ * (d0 / P0) * v ^ 2 with hp1def
  have hp1 : 1 ≤ p1 := le_add_of_nonneg_right (by positivity)
  have hp1' : (0:ℝ) ≤ p1 := by linarith
  set p2 : ℝ := p1 ^ g_r with hp2def
  have hp2 : 1 ≤ p2 := Real.one_le_rpow hp1 (le_of_lt hg)
  set b : ℝ := 1 + P0 / Ph * (p2 - 1) with hbdef
  have hb : 1 ≤ b := le_add_of_nonneg_right (mul_nonneg (by positivity) (by linarith))
  have hb' : (0:ℝ) ≤ b := by linarith
  set p3 : ℝ := b ^ (1 / g_r) with hp3def
  have hp3 : 1 ≤ p3 := Real.one_le_rpow hb (by positivity)
  have harg : (0:ℝ) ≤ 2 * g_r * (Ph / dh) * (p3 - 1) :=
    mul_nonneg (by positivity) (by linarith)
  have ht2 : Real.sqrt (2 * g_r * (Ph / dh) * (p3 - 1)) ^ 2
      = 2 * g_r * (Ph / dh) * (p3 - 1) := Real.sq_sqrt harg
  rw [ht2]
  have hq1 : 1 + (2 * g_r)⁻¹ * (dh / Ph) * (2 * g_r * (Ph / dh) * (p3 - 1)) = p3 := by
    field_simp
    ring
  rw [hq1]
  have hq2 : p3 ^ g_r = b := by
    rw [hp3def, ← Real.rpow_mul hb', one_div, inv_mul_cancel₀ hgne, Real.rpow_one]
  rw [hq2]
  have hq3 : Ph / P0 * (b - 1) + 1 = p2 := by
    rw [hbdef]
    field_simp
    ring
  rw [hq3]
  have hq4 : p2 ^ (1 / g_r) = p1 := by
    rw [hp2def, ← Real.rpow_mul hp1', mul_one_div, div_self hgne, Real.rpow_one]
  rw [hq4]
  have hq5 : 2 * g_r * (P0 / d0) * (p1 - 1) = v ^ 2 := by
    rw [hp1def]
    field_simp
    ring
  rw [hq5, Real.sqrt_sq hv]

/-- Over an altitude where the atmosphere properties coincide with their
sea-level values, the exact CAS→TAS relation is the identity. -/
lemma cas2tas_core_const (atm : Atmos) (v h : ℝ) (hv : 0 ≤ v)
    (hd : atm.density h = atm.density 0) (hp : atm.pressure h = atm.pressure 0)
    (hd0 : 0 < atm.density 0) (hp0 : 0 < atm.pressure 0) :
    cas2tas_core atm v h = v := by
  have hg : (0:ℝ) < g_r := g_r_pos
  have hgne : g_r ≠ 0 := ne_of_gt hg
  rw [cas2tas_core, hd, hp]
  set d0 := atm.density 0 with hd0'
  set P0 := atm.pressure 0 with hP0'
  set p1 : ℝ := 1 + (2 * g_r)⁻¹ * (d0 / P0) * v ^ 2 with hp1def
  have hp1 : 1 ≤ p1 := le_add_of_nonneg_right (by positivity)
  have hp1' : (0:ℝ) ≤ p1 := by linarith
  have hq1 : 1 + P0 / P0 * (p1 ^ g_r - 1) = p1 ^ g_r := by
    rw [div_self (ne_of_gt hp0)]
    ring
  rw [hq1]
  have hq2 : (p1 ^ g_r) ^ (1 / g_r) = p1 := by
    rw [← Real.rpow_mul hp1', mul_one_div, div_self hgne, Real.rpow_one]
  rw [hq2]
  have hq3 : 2 * g_r * (P0 / d0) * (p1 - 1) = v ^ 2 := by
    rw [hp1def]
    field_simp
    ring
  rw [hq3, Real.sqrt_sq hv]

/-- Over an altitude where the atmosphere properties coincide with their
sea-level values, the exact TAS→CAS relation is the identity. -/
lemma tas2cas_core_const (atm : Atmos) (v h : ℝ) (hv : 0 ≤ v)
    (hd : atm.density h = atm.density 0) (hp : atm.pressure h = atm.pressure 0)
    (hd0 : 0 < atm.density 0) (hp0 : 0 < atm.pressure 0) :
    tas2cas_core atm v h = v := by
  have hg : (0:ℝ) < g_r := g_r_pos
  have hgne : g_r ≠ 0 := ne_of_gt hg
  rw [tas2cas_core, hd, hp]
  set d0 := atm.density 0 with hd0'
  set P0 := atm.pressure 0 with hP0'
  set p1 : ℝ := 1 + (2 * g_r)⁻¹ * (d0 / P0) * v ^ 2 with hp1def
  have hp1 : 1 ≤ p1 := le_add_of_nonneg_right (by positivity)
  have hp1' : (0:ℝ) ≤ p1 := by linarith
  have hq1 : P0 / P0 * (p1 ^ g_r - 1) + 1 = p1 ^ g_r := by
    rw [div_self (ne_of_gt hp0)]
    ring
  rw [hq1]
  have hq2 : (p1 ^ g_r) ^ (1 / g_r) = p1 := by
    rw [← Real.rpow_mul hp1', mul_one_div, div_self hgne, Real.rpow_one]
  rw [hq2]
  have hq3 : 2 * g_r * (P0 / d0) * (p1 - 1) = v ^ 2 := by
    rw [hp1def]
    field_simp
    ring
  rw [hq3, Real.sqrt_sq hv]

/-! ### Claim C7 -/

/-- C7: for every phase value outside {"climb", "descent",
"descent_approach"}, `load_or_run_simulation` fails fast with a descriptive
error and an empty effect trace: no simulation step is run and no file
access is performed. -/
theorem C7_invalid_phase_fails_fast {α : Type} (phase : String)
    (results_file_exists : Bool) (loaded_result simulated_result : α)
    (hph : phase ∉ ["climb", "descent", "descent_approach"]) :
    load_or_run_simulation phase results_file_exists loaded_result simulated_result =
      (Except.error "Phase must be either climb, descent, or descent_approach.",
        ([] : List SimEffect)) := by
  simp [load_or_run_simulation, hph]

/-- Witness for C7 at the concrete invalid phase "cruise". -/
theorem C7_witness :
    load_or_run_simulation "cruise" true (0 : ℕ) 1 =
      (Except.error "Phase must be either climb, descent, or descent_approach.",
        ([] : List SimEffect)) :=
  C7_invalid_phase_fails_fast "cruise" true 0 1 (by decide)

/-! ### Claim C8 -/

/-- C8: called with a phase other than "climb" or "descent",
`simulation_euler` applies the descent thrust percentage (5 % of maximum
thrust) and no branch of its stop `match` ever fires, so the stepping loop
never reaches a terminated state, whatever the step budget. -/
theorem C8_unknown_phase_never_stops (p : SimParams) (theta_trim : ℝ)
    (fuel : ℕ) (s : SimState)
    (h1 : p.phase ≠ "climb") (h2 : p.phase ≠ "descent") :
    thrust_app_perc p.phase = 0.05 ∧
    eulerLoop p theta_trim fuel s = none := by
  refine ⟨by simp [thrust_app_perc, h1], ?_⟩
  induction fuel generalizing s with
  | zero => rfl
  | succ n ih =>
    simp only [eulerLoop]
    rw [if_neg h1, if_neg h2]
    exact ih _

/-- Witness for C8 at the concrete phase "descent_approach". -/
theorem C8_witness :
    thrust_app_perc "descent_approach" = 0.05 ∧
    eulerLoop approachPhaseParams 0 3 zeroState = none :=
  C8_unknown_phase_never_stops approachPhaseParams 0 3 zeroState
    (by decide) (by decide)

/-! ### Claim C4 -/

/-- C4: `pilot_pitch_control` returns `theta = k_p·v_error + theta_trim`,
where in the climb phase the error is taken against `v_ref` while the
current Mach rounded to 2 decimals is below the cruise Mach and against the
CAS equivalent of the cruise Mach at the current altitude otherwise, and in
the descent phase the mirrored branch applies: against the CAS equivalent of
the cruise Mach while the rounded IAS is below `v_ref`, against `v_ref`
otherwise. -/
theorem C4_pilot_pitch_control_law (atm : Atmos)
    (k_p theta_trim v_ref v_ias h cruise_mach : ℝ) :
    pilot_pitch_control atm k_p theta_trim v_ref v_ias h cruise_mach "climb" =
      k_p * (if roundd 2 (cas2mach atm v_ias h) < cruise_mach then v_ias - v_ref
        else v_ias - tas2cas atm (cruise_mach * atm.speed_of_sound h) h) + theta_trim
    ∧ pilot_pitch_control atm k_p theta_trim v_ref v_ias h cruise_mach "descent" =
      k_p * (if roundd 0 v_ias < v_ref then
          v_ias - tas2cas atm (cruise_mach * atm.speed_of_sound h) h
        else v_ias - v_ref) + theta_trim := by
  constructor
  · rw [pilot_pitch_control, if_pos rfl, mul_comm]
  · rw [pilot_pitch_control, if_neg (by decide), mul_comm]

/-! ### Claim C6 -/

/-- C6: `max_thrust_model` computes
`(A − Z·mach·0.377(1+BPR)/sqrt(G0·(1+0.82·BPR)) +
(0.23+0.19·sqrt BPR)·X·mach²)·thrust_sea_level` with
`G0 = 0.6375+0.0604·BPR`, rounded to 4 decimals; and at altitude 0 and
Mach 0 with bypass ratio 5 it returns `thrust_sl · A(δ=1)` with `A(1) = 1`
(for a 4-decimal sea-level thrust, e.g. the repository constant 270 kN). -/
theorem C6_max_thrust_formula (atm : Atmos) (thrust_sl bpr h mach : ℝ)
    (hp0 : 0 < atm.pressure 0) (hsl : roundd 4 thrust_sl = thrust_sl) :
    max_thrust_model atm thrust_sl bpr h mach =
      roundd 4 ((aCoefPoly (atm.pressure h / atm.pressure 0)
        - zCoefPoly (atm.pressure h / atm.pressure 0) * mach * (0.377 * (1 + bpr)) /
            Real.sqrt ((0.6375 + 0.0604 * bpr) * (1 + 0.82 * bpr))
        + (0.23 + 0.19 * Real.sqrt bpr) * xCoefPoly (atm.pressure h / atm.pressure 0)
            * mach ^ 2) * thrust_sl)
    ∧ max_thrust_model atm thrust_sl 5 0 0 = thrust_sl * aCoefPoly 1
    ∧ aCoefPoly 1 = 1 := by
  have hone : aCoefPoly 1 = 1 := by norm_num [aCoefPoly]
  refine ⟨rfl, ?_, hone⟩
  have hd : atm.pressure 0 / atm.pressure 0 = 1 := div_self (ne_of_gt hp0)
  rw [max_thrust_model, hd, hone]
  norm_num
  exact hsl

/-- Witness for C6 at the constant test atmosphere and the repository's
270 kN single-engine sea-level thrust. -/
theorem C6_witness :
    max_thrust_model stdAtmos 270000 5 0 0 = 270000 * aCoefPoly 1 ∧
    aCoefPoly 1 = 1 :=
  have h := C6_max_thrust_formula stdAtmos 270000 5 0 0 (by norm_num [stdAtmos])
    (by exact_mod_cast roundd_intCast 4 270000)
  ⟨h.2.1, h.2.2⟩

/-! ### Claim C3 -/

/-- C3: for every valid subsonic speed and altitude, `tas2cas` is the
algebraic inverse of `cas2tas` — the round trip with the two 2-decimal
roundings removed returns the input exactly, and the implemented round trip
equals that exact computation with precisely the two per-conversion
roundings interposed. -/
theorem C3_airspeed_round_trip (atm : Atmos) (v h : ℝ) (hv : 0 ≤ v)
    (hd0 : 0 < atm.density 0) (hp0 : 0 < atm.pressure 0)
    (hdh : 0 < atm.density h) (hph : 0 < atm.pressure h) :
    tas2cas_core atm (cas2tas_core atm v h) h = v ∧
    tas2cas atm (cas2tas atm v h) h =
      roundd 2 (tas2cas_core atm (roundd 2 (cas2tas_core atm v h)) h) :=
  ⟨tas2cas_core_cas2tas_core atm v h hv hd0 hp0 hdh hph, rfl⟩

/-- Witness for C3 at the constant test atmosphere, 100 m/s and 2000 m. -/
theorem C3_witness :
    tas2cas_core stdAtmos (cas2tas_core stdAtmos 100 2000) 2000 = 100 ∧
    tas2cas stdAtmos (cas2tas stdAtmos 100 2000) 2000 =
      roundd 2 (tas2cas_core stdAtmos (roundd 2 (cas2tas_core stdAtmos 100 2000)) 2000) :=
  C3_airspeed_round_trip stdAtmos 100 2000 (by norm_num)
    (by norm_num [stdAtmos]) (by norm_num [stdAtmos])
    (by norm_num [stdAtmos]) (by norm_num [stdAtmos])

/-! ### Claim C2 -/

/-- A `simulation_euler` loop can only return a state on which the stop
condition of its `match` statement holds. -/
lemma eulerLoop_some_stop (p : SimParams) (theta_trim : ℝ) :
    ∀ {fuel : ℕ} {s sf : SimState}, eulerLoop p theta_trim fuel s = some sf →
      eulerStop p.phase sf := by
  intro fuel
  induction fuel with
  | zero => intro s sf hrun; simp [eulerLoop] at hrun
  | succ n ih =>
    intro s sf hrun
    simp only [eulerLoop] at hrun
    by_cases h1 : p.phase = "climb"
    · rw [if_pos h1] at hrun
      by_cases h2 : 10000 ≤ (eulerStep p theta_trim s).h
      · rw [if_pos h2] at hrun
        injection hrun with h3
        subst h3
        exact Or.inl ⟨h1, h2⟩
      · rw [if_neg h2] at hrun
        exact ih hrun
    · rw [if_neg h1] at hrun
      by_cases h2 : p.phase = "descent"
      · rw [if_pos h2] at hrun
        by_cases h3 : (eulerStep p theta_trim s).h ≤ 1000
        · rw [if_pos h3] at hrun
          injection hrun with h4
          subst h4
          exact Or.inr ⟨h2, h3⟩
        · rw [if_neg h3] at hrun
          exact ih hrun
      · rw [if_neg h2] at hrun
        exact ih hrun

/-- C2 (amended): termination of the `simulation_euler` loop is decided
only by the altitude threshold, and whenever a run terminates, a climb run
ends at an altitude of at least 10000 m and a descent run at an altitude of
at most 1000 m; termination itself is not guaranteed for every valid input
(see the counterexample with a zero time step). -/
theorem C2_threshold_partial_correctness (p : SimParams) (theta_trim : ℝ)
    (fuel : ℕ) (s sf : SimState)
    (hrun : eulerLoop p theta_trim fuel s = some sf) :
    (p.phase = "climb" → 10000 ≤ sf.h) ∧ (p.phase = "descent" → sf.h ≤ 1000) := by
  have hstop := eulerLoop_some_stop p theta_trim hrun
  rw [eulerStop] at hstop
  constructor
  · intro hc
    rcases hstop with ⟨_, hh⟩ | ⟨hd, _⟩
    · exact hh
    · rw [hc] at hd
      exact absurd hd (by decide)
  · intro hd
    rcases hstop with ⟨hc, _⟩ | ⟨_, hh⟩
    · rw [hd] at hc
      exact absurd hc (by decide)
    · exact hh

/-- With a zero time step the Euler step leaves the altitude unchanged. -/
lemma eulerStep_h_zero_dt (p : SimParams) (theta_trim : ℝ) (s : SimState)
    (hdt : p.time_step = 0) : (eulerStep p theta_trim s).h = s.h := by
  show eulerNewH p s = s.h
  rw [eulerNewH, hdt]
  ring

/-- Counterexample to C2 as stated: the climb run from sea level with a
zero time step — a valid call of `simulation_euler` — never terminates: the
altitude never changes, so the 10000 m threshold, the only exit of the
loop, is never reached. -/
theorem C2_counterexample : ¬ EulerTerminates climbZeroDtParams 0 zeroState := by
  have key : ∀ (fuel : ℕ) (s : SimState), s.h < 10000 →
      eulerLoop climbZeroDtParams 0 fuel s = none := by
    intro fuel
    induction fuel with
    | zero => intro s _; rfl
    | succ n ih =>
      intro s hs
      have hh : (eulerStep climbZeroDtParams 0 s).h = s.h :=
        eulerStep_h_zero_dt _ _ _ rfl
      simp only [eulerLoop]
      rw [if_pos (by decide : climbZeroDtParams.phase = "climb"),
        if_neg (by rw [hh]; exact not_le.mpr hs)]
      exact ih _ (by rw [hh]; exact hs)
  rintro ⟨fuel, sf, hrun⟩
  rw [key fuel zeroState (by norm_num [zeroState])] at hrun
  exact Option.noConfusion hrun

/-- Witness for C2: a concrete climb run that does terminate ends at an
altitude of at least 10000 m. -/
theorem C2_witness : (10000 : ℝ) ≤ (eulerStep climbZeroDtParams 0 thresholdState).h := by
  have hh : (eulerStep climbZeroDtParams 0 thresholdState).h = thresholdState.h :=
    eulerStep_h_zero_dt _ _ _ rfl
  have hge : (10000 : ℝ) ≤ (eulerStep climbZeroDtParams 0 thresholdState).h := by
    rw [hh]
    norm_num [thresholdState]
  have hrun : eulerLoop climbZeroDtParams 0 1 thresholdState =
      some (eulerStep climbZeroDtParams 0 thresholdState) := by
    simp only [eulerLoop]
    rw [if_pos (by decide : climbZeroDtParams.phase = "climb"), if_pos hge]
  exact (C2_threshold_partial_correctness climbZeroDtParams 0 1 thresholdState _ hrun).1 rfl

/-! ### Claims C9 and C10 -/

lemma approachStep_v_tas (p : AppParams) (s : AppState) :
    (approachStep p s).v_tas = s.v_tas := rfl

lemma approachStep_h (p : AppParams) (s : AppState) :
    (approachStep p s).h = appNewH p s := rfl

lemma approachStep_mach (p : AppParams) (s : AppState) :
    (approachStep p s).mach = tas2mach p.atm s.v_tas (appNewH p s) := rfl

lemma approachRec_h (p : AppParams) (s : AppState) :
    (approachRec p s).h = s.h := rfl

lemma approachRec_v_ias (p : AppParams) (s : AppState) :
    (approachRec p s).v_ias = tas2cas p.atm s.v_tas s.h := rfl

lemma approachRec_mach (p : AppParams) (s : AppState) :
    (approachRec p s).mach = s.mach := rfl

/-- Every row the approach loop appends belongs to a state that survived the
screen-height check: its altitude is strictly above the screen height. -/
lemma approachLoop_h_gt (p : AppParams) :
    ∀ {fuel : ℕ} {s : AppState} {l : List AppRec},
      approachLoop p fuel s = some l → ∀ r ∈ l, p.screen_h < r.h := by
  intro fuel
  induction fuel with
  | zero => intro s l hrun; simp [approachLoop] at hrun
  | succ n ih =>
    intro s l hrun
    simp only [approachLoop] at hrun
    by_cases hb : (approachStep p s).h ≤ p.screen_h
    · rw [if_pos hb] at hrun
      injection hrun with h'
      subst h'
      intro r hr
      simp at hr
    · rw [if_neg hb] at hrun
      cases ho : approachLoop p n (approachStep p s) with
      | none => rw [ho] at hrun; simp at hrun
      | some l' =>
        rw [ho] at hrun
        simp only [Option.map_some'] at hrun
        injection hrun with h'
        subst h'
        intro r hr
        rcases List.mem_cons.mp hr with h | h
        · subst h
          rw [approachRec_h]
          exact lt_of_not_le hb
        · exact ih ho r h

/-- Rows appended by the approach loop from a state travelling at the
reference speed record the IAS and Mach of `v_ref` at their own altitude. -/
lemma approachLoop_records (p : AppParams) :
    ∀ {fuel : ℕ} {s : AppState} {l : List AppRec},
      approachLoop p fuel s = some l → s.v_tas = p.v_ref →
      ∀ r ∈ l, r.v_ias = tas2cas p.atm p.v_ref r.h ∧
        r.mach = tas2mach p.atm p.v_ref r.h := by
  intro fuel
  induction fuel with
  | zero => intro s l hrun _; simp [approachLoop] at hrun
  | succ n ih =>
    intro s l hrun hv
    simp only [approachLoop] at hrun
    by_cases hb : (approachStep p s).h ≤ p.screen_h
    · rw [if_pos hb] at hrun
      injection hrun with h'
      subst h'
      intro r hr
      simp at hr
    · rw [if_neg hb] at hrun
      cases ho : approachLoop p n (approachStep p s) with
      | none => rw [ho] at hrun; simp at hrun
      | some l' =>
        rw [ho] at hrun
        simp only [Option.map_some'] at hrun
        injection hrun with h'
        subst h'
        intro r hr
        rcases List.mem_cons.mp hr with h | h
        · subst h
          constructor
          · rw [approachRec_v_ias, approachRec_h, approachStep_v_tas, hv]
          · rw [approachRec_mach, approachRec_h, approachStep_mach, hv, approachStep_h]
        · exact ih ho (by rw [approachStep_v_tas, hv]) r h

/-- C9: in a `simulation_descent_approach_euler` run started strictly above
the screen height, every recorded altitude is strictly above the screen
height — the state that first satisfies `h ≤ screen_h` triggers the break
before being appended — unlike `simulation_euler`, whose returned final
state is the appended state satisfying the stop condition. -/
theorem C9_approach_rows_above_screen (p : AppParams) (ics : Ics) (fuel : ℕ)
    (l : List AppRec) (hh : p.screen_h < ics.h)
    (hrun : simulation_descent_approach_euler p ics fuel = some l)
    (pe : SimParams) (tte : ℝ) (fe : ℕ) (se sfe : SimState)
    (hrune : eulerLoop pe tte fe se = some sfe) :
    (∀ r ∈ l, p.screen_h < r.h) ∧ eulerStop pe.phase sfe := by
  constructor
  · rw [simulation_descent_approach_euler] at hrun
    cases ho : approachLoop p fuel (appInit p ics) with
    | none => rw [ho] at hrun; simp at hrun
    | some l' =>
      rw [ho] at hrun
      simp only [Option.map_some'] at hrun
      injection hrun with h'
      subst h'
      intro r hr
      rcases List.mem_cons.mp hr with h | h
      · subst h
        exact hh
      · exact approachLoop_h_gt p ho r h
  · exact eulerLoop_some_stop pe tte hrune

/-- A concrete one-step terminating approach run: from 11 m towards a 10 m
screen height at 4 m/s down a π/6 glideslope, the first step descends to
9 m, so only the initial row is recorded. -/
lemma shortApp_run_eq :
    simulation_descent_approach_euler shortAppParams shortAppIcs 1 =
      some [approachRec shortAppParams (appInit shortAppParams shortAppIcs)] := by
  have hb : (approachStep shortAppParams (appInit shortAppParams shortAppIcs)).h ≤
      shortAppParams.screen_h := by
    rw [approachStep_h, appNewH]
    show (11:ℝ) + 4 * Real.sin (-(Real.pi / 6)) * 1 ≤ 10
    rw [Real.sin_neg, Real.sin_pi_div_six]
    norm_num
  rw [simulation_descent_approach_euler]
  simp only [approachLoop]
  rw [if_pos hb]
  rfl

/-- Witness for C9 on the concrete terminating approach run (whose only
recorded altitude, 11 m, is above the 10 m screen height) and a concrete
terminating climb run. -/
theorem C9_witness :
    shortAppParams.screen_h <
      (approachRec shortAppParams (appInit shortAppParams shortAppIcs)).h ∧
    eulerStop climbZeroDtParams.phase (eulerStep climbZeroDtParams 0 thresholdState) := by
  have hge : (10000 : ℝ) ≤ (eulerStep climbZeroDtParams 0 thresholdState).h := by
    rw [eulerStep_h_zero_dt _ _ _ rfl]
    norm_num [thresholdState]
  have hrune : eulerLoop climbZeroDtParams 0 1 thresholdState =
      some (eulerStep climbZeroDtParams 0 thresholdState) := by
    simp only [eulerLoop]
    rw [if_pos (by decide : climbZeroDtParams.phase = "climb"), if_pos hge]
  have h := C9_approach_rows_above_screen shortAppParams shortAppIcs 1 _
    (by norm_num [shortAppParams, shortAppIcs]) shortApp_run_eq
    climbZeroDtParams 0 1 thresholdState _ hrune
  exact ⟨h.1 _ (List.mem_cons_self _ _), h.2⟩

/-- C10: throughout a `simulation_descent_approach_euler` run the true
airspeed state is never modified after its initialisation to `v_ref` — the
step function leaves it unchanged — so every recorded row carries
`tas2cas(v_ref, h)` as its IAS and `tas2mach(v_ref, h)` as its Mach, at the
row's own altitude. -/
theorem C10_approach_tas_never_modified (p : AppParams) (ics : Ics) (fuel : ℕ)
    (l : List AppRec)
    (hrun : simulation_descent_approach_euler p ics fuel = some l) :
    (∀ s, (approachStep p s).v_tas = s.v_tas) ∧
    ∀ r ∈ l, r.v_ias = tas2cas p.atm p.v_ref r.h ∧
      r.mach = tas2mach p.atm p.v_ref r.h := by
  refine ⟨fun s => rfl, ?_⟩
  rw [simulation_descent_approach_euler] at hrun
  cases ho : approachLoop p fuel (appInit p ics) with
  | none => rw [ho] at hrun; simp at hrun
  | some l' =>
    rw [ho] at hrun
    simp only [Option.map_some'] at hrun
    injection hrun with h'
    subst h'
    intro r hr
    rcases List.mem_cons.mp hr with h | h
    · subst h
      exact ⟨rfl, rfl⟩
    · exact approachLoop_records p ho rfl r h

/-- Witness for C10 on the concrete terminating approach run. -/
theorem C10_witness :
    (approachStep shortAppParams zeroAppState).v_tas = zeroAppState.v_tas ∧
    (approachRec shortAppParams (appInit shortAppParams shortAppIcs)).v_ias =
      tas2cas shortAppParams.atm shortAppParams.v_ref
        (approachRec shortAppParams (appInit shortAppParams shortAppIcs)).h := by
  have h := C10_approach_tas_never_modified shortAppParams shortAppIcs 1 _ shortApp_run_eq
  exact ⟨h.1 zeroAppState, (h.2 _ (List.mem_cons_self _ _)).1⟩

/-! ### Claim C5 -/

lemma eulerStep_m_f (p : SimParams) (theta_trim : ℝ) (s : SimState) :
    (eulerStep p theta_trim s).m_f_burnt = s.m_f_burnt + |eulerDm p s| := rfl

lemma eulerStep_w (p : SimParams) (theta_trim : ℝ) (s : SimState) :
    (eulerStep p theta_trim s).w = s.w + eulerDm p s * Grav_const / 1000000 := rfl

/-- Along iterated Euler steps the accumulated fuel burn is the sum of the
per-step increments `|fuel_flow·dt|`. -/
lemma euler_fuel_sum (p : SimParams) (theta_trim : ℝ) (s0 : SimState)
    (h0 : s0.m_f_burnt = 0) (n : ℕ) :
    ((eulerStep p theta_trim)^[n] s0).m_f_burnt =
      ∑ i in Finset.range n,
        |eulerFF p ((eulerStep p theta_trim)^[i] s0) * p.time_step| := by
  induction n with
  | zero => simpa using h0
  | succ m ih =>
    rw [Function.iterate_succ_apply', eulerStep_m_f, ih, Finset.sum_range_succ]
    congr 1
    rw [eulerDm, neg_mul, abs_neg]

/-- C5 (amended): `fuel_flow` computes `c_t = 11·(1+mach)·sqrt(T_h/T_sl)`
and returns `c_t·thrust` rounded to 4 decimals; the flow is non-negative
whenever the thrust is non-negative and `mach ≥ −1` (for a negative thrust
input it is negative, see the counterexample); and in the simulations the
per-step fuel-burn increment is `|fuel_flow·dt|`, so the fuel burned after
`n` Euler steps is the sum of `|fuel_flow·dt|` over those steps. -/
theorem C5_fuel_flow_accounting (atm : Atmos) (thrust mach h : ℝ)
    (p : SimParams) (ics : Ics) (n : ℕ) (pa : AppParams) (sa : AppState)
    (hT : 0 ≤ thrust) (hm : -1 ≤ mach) :
    fuel_flow atm thrust mach h =
      roundd 4 (11 * (1 + mach) * Real.sqrt (atm.temperature h / atm.temperature 0) * thrust)
    ∧ 0 ≤ fuel_flow atm thrust mach h
    ∧ ((eulerStep p (eulerTrim p ics))^[n] (eulerInit p ics)).m_f_burnt =
        ∑ i in Finset.range n,
          |eulerFF p ((eulerStep p (eulerTrim p ics))^[i] (eulerInit p ics)) * p.time_step|
    ∧ (approachStep pa sa).m_f_burnt =
        sa.m_f_burnt + |fuel_flow pa.atm (appThrust pa sa) sa.mach sa.h * pa.time_step| := by
  refine ⟨rfl, ?_, ?_, ?_⟩
  · exact roundd_nonneg _
      (mul_nonneg (mul_nonneg (by linarith) (Real.sqrt_nonneg _)) hT)
  · exact euler_fuel_sum p (eulerTrim p ics) (eulerInit p ics) rfl n
  · rw [show (approachStep pa sa).m_f_burnt = sa.m_f_burnt + |appDm pa sa| from rfl,
      appDm, neg_mul, abs_neg]

/-- Counterexample to C5's unconditional non-negativity: at a negative
thrust input the fuel flow itself is negative. -/
theorem C5_counterexample : fuel_flow stdAtmos (-1) 0 0 < 0 := by
  rw [fuel_flow]
  have hT : stdAtmos.temperature 0 / stdAtmos.temperature 0 = 1 := by
    norm_num [stdAtmos]
  rw [hT, Real.sqrt_one]
  exact roundd_neg_of_le_neg_one 4 (by norm_num)

/-- Witness for C5 at concrete inputs: non-negative flow at a positive
thrust, and the per-step fuel increment of a concrete approach step. -/
theorem C5_witness :
    (0:ℝ) ≤ fuel_flow stdAtmos 1000 0.5 0 ∧
    (approachStep shortAppParams zeroAppState).m_f_burnt =
      zeroAppState.m_f_burnt +
        |fuel_flow shortAppParams.atm (appThrust shortAppParams zeroAppState)
          zeroAppState.mach zeroAppState.h * shortAppParams.time_step| := by
  have h := C5_fuel_flow_accounting stdAtmos 1000 0.5 0 stepParams shortAppIcs 1
    shortAppParams zeroAppState (by norm_num) (by norm_num)
  exact ⟨h.2.1, h.2.2.2⟩

/-! ### Claim C1 -/

lemma aCoefPoly_nonneg {d : ℝ} (h0 : 0 ≤ d) (h2 : d ≤ 2) : 0 ≤ aCoefPoly d := by
  rw [aCoefPoly]
  nlinarith [mul_nonneg h0 (by linarith : (0:ℝ) ≤ 2 - d)]

lemma xCoefPoly_nonneg {d : ℝ} (h0 : 0 ≤ d) : 0 ≤ xCoefPoly d := by
  rw [xCoefPoly]
  nlinarith [mul_nonneg h0 (sq_nonneg (d - 1)), sq_nonneg d, h0]

lemma zCoefPoly_nonneg {d : ℝ} (h0 : 0 ≤ d) (h2 : d ≤ 2) : 0 ≤ zCoefPoly d := by
  have h2' : (0:ℝ) ≤ 2 - d := by linarith
  rw [zCoefPoly]
  nlinarith [mul_nonneg h0 (sq_nonneg (d - 1)),
    mul_nonneg (mul_nonneg h0 h0) h2', h0]

/-- Discriminant bound for the thrust lapse quadratic in Mach: over pressure
ratios up to 2, `Z(δ)² ≤ 2·A(δ)·X(δ)`. -/
lemma zsq_le_two_ax {d : ℝ} (h0 : 0 ≤ d) (h2 : d ≤ 2) :
    zCoefPoly d ^ 2 ≤ 2 * aCoefPoly d * xCoefPoly d := by
  have hq : 0 ≤ 2 * (-0.4327 * d ^ 2 + 1.3855 * d + 0.0472)
      * (0.9106 * d ^ 2 - 1.7736 * d + 1.8697)
      - d * (0.1377 * d ^ 2 - 0.4374 * d + 1.3003) ^ 2 := by
    nlinarith [sq_nonneg (d - 1), sq_nonneg (d - 2), sq_nonneg d, mul_nonneg h0 h0,
      mul_nonneg h0 (sq_nonneg (d - 1)), mul_nonneg h0 (sq_nonneg (d - 2)),
      mul_nonneg (mul_nonneg h0 h0) h0, sq_nonneg (d * d - d),
      mul_nonneg h0 (by linarith : (0:ℝ) ≤ 2 - d),
      mul_nonneg (mul_nonneg h0 h0) (by linarith : (0:ℝ) ≤ 2 - d),
      mul_nonneg (mul_nonneg (mul_nonneg h0 h0) h0) (by linarith : (0:ℝ) ≤ 2 - d),
      mul_nonneg (mul_nonneg h0 (by linarith : (0:ℝ) ≤ 2 - d)) (sq_nonneg (d - 1))]
  rw [aCoefPoly, xCoefPoly, zCoefPoly]
  nlinarith [mul_nonneg h0 hq]

/-- AM–GM assembly: a quadratic `a − u·m + c2·x·m²` with non-negative
coefficients is non-negative for `m ≥ 0` once its discriminant data is
bounded as in `zsq_le_two_ax`, with `u = 2.262/s`, `s² = 4.79145` and
`c2 ≥ 0.6548`. -/
lemma thrust_quadratic_nonneg (a x z m s c2 : ℝ) (ha : 0 ≤ a) (hx : 0 ≤ x)
    (hz : 0 ≤ z) (hm : 0 ≤ m) (hzax : z ^ 2 ≤ 2 * a * x)
    (hs2 : s ^ 2 = 4.79145) (hs0 : (0:ℝ) < s) (hc2lb : (0.6548:ℝ) ≤ c2) :
    0 ≤ a - z * m * 2.262 / s + c2 * x * m ^ 2 := by
  have hc2pos : (0:ℝ) < c2 := by linarith
  have key : z * m * 2.262 / s ≤ a + c2 * x * m ^ 2 := by
    have hLnn : 0 ≤ z * m * 2.262 / s := by positivity
    have hRnn : 0 ≤ a + c2 * x * m ^ 2 := by positivity
    have hsq : (z * m * 2.262 / s) ^ 2 ≤ (a + c2 * x * m ^ 2) ^ 2 := by
      rw [div_pow, hs2, div_le_iff₀ (by norm_num : (0:ℝ) < 4.79145)]
      nlinarith [mul_le_mul_of_nonneg_right hzax (sq_nonneg m),
        sq_nonneg (a - c2 * x * m ^ 2),
        mul_nonneg (mul_nonneg ha hx) (sq_nonneg m), hc2lb,
        mul_nonneg (mul_nonneg (mul_nonneg ha hx) (sq_nonneg m))
          (by linarith : (0:ℝ) ≤ c2 - 0.6548)]
    calc z * m * 2.262 / s
        = Real.sqrt ((z * m * 2.262 / s) ^ 2) := (Real.sqrt_sq hLnn).symm
      _ ≤ Real.sqrt ((a + c2 * x * m ^ 2) ^ 2) := Real.sqrt_le_sqrt hsq
      _ = a + c2 * x * m ^ 2 := Real.sqrt_sq hRnn
  linarith [key]

/-- The thrust lapse factor of `max_thrust_model` at bypass ratio `BPR = 5`
is non-negative for every pressure ratio in `[0, 2]` and non-negative Mach. -/
lemma max_thrust_core_nonneg {d m : ℝ} (h0 : 0 ≤ d) (h2 : d ≤ 2) (hm : 0 ≤ m) :
    0 ≤ aCoefPoly d - zCoefPoly d * m * (0.377 * (1 + BPR)) /
        Real.sqrt ((0.6375 + 0.0604 * BPR) * (1 + 0.82 * BPR))
      + (0.23 + 0.19 * Real.sqrt BPR) * xCoefPoly d * m ^ 2 := by
  have hB : BPR = (5:ℝ) := rfl
  rw [hB]
  have e1 : (0.377 * (1 + 5) : ℝ) = 2.262 := by norm_num
  have e2 : ((0.6375 + 0.0604 * 5) * (1 + 0.82 * 5) : ℝ) = 4.79145 := by norm_num
  rw [e1, e2]
  have h5 : (2.236:ℝ) ≤ Real.sqrt 5 := by
    nlinarith [Real.sq_sqrt (by norm_num : (0:ℝ) ≤ 5), Real.sqrt_nonneg 5]
  exact thrust_quadratic_nonneg (aCoefPoly d) (xCoefPoly d) (zCoefPoly d) m
    (Real.sqrt 4.79145) (0.23 + 0.19 * Real.sqrt 5)
    (aCoefPoly_nonneg h0 h2) (xCoefPoly_nonneg h0) (zCoefPoly_nonneg h0 h2) hm
    (zsq_le_two_ax h0 h2) (Real.sq_sqrt (by norm_num))
    (Real.sqrt_pos.mpr (by norm_num)) (by nlinarith [h5])

/-- Over a valid atmosphere the four-engine maximum thrust of the
simulation is non-negative at every altitude and non-negative Mach. -/
lemma max_thrust_model_nonneg (atm : Atmos) (hva : ValidAtm atm) (h mach : ℝ)
    (hm : 0 ≤ mach) : 0 ≤ max_thrust_model atm Max_Thrust_SE_SL BPR h mach := by
  obtain ⟨_, hp, _, _, hpr⟩ := hva
  rw [max_thrust_model]
  apply roundd_nonneg
  apply mul_nonneg _ (by norm_num [Max_Thrust_SE_SL])
  have hd0 : 0 ≤ atm.pressure h / atm.pressure 0 :=
    div_nonneg (le_of_lt (hp h)) (le_of_lt (hp 0))
  have hd2 : atm.pressure h / atm.pressure 0 ≤ 2 := by
    rw [div_le_iff₀ (hp 0)]
    calc atm.pressure h ≤ 2 * atm.pressure 0 := hpr h
      _ = 2 * atm.pressure 0 := rfl
  exact max_thrust_core_nonneg hd0 hd2 hm

lemma thrust_app_perc_pos (phase : String) : 0 < thrust_app_perc phase := by
  rw [thrust_app_perc]
  split <;> norm_num

lemma eulerThrust_nonneg (p : SimParams) (s : SimState) (hva : ValidAtm p.atm)
    (hm : 0 ≤ s.mach) : 0 ≤ eulerThrust p s := by
  rw [eulerThrust]
  exact mul_nonneg
    (mul_nonneg (by norm_num) (max_thrust_model_nonneg p.atm hva s.h s.mach hm))
    (le_of_lt (thrust_app_perc_pos p.phase))

lemma eulerFF_nonneg (p : SimParams) (s : SimState) (hva : ValidAtm p.atm)
    (hm : 0 ≤ s.mach) : 0 ≤ eulerFF p s := by
  rw [eulerFF, fuel_flow]
  exact roundd_nonneg _ (mul_nonneg
    (mul_nonneg (by linarith : (0:ℝ) ≤ 11 * (1 + s.mach)) (Real.sqrt_nonneg _))
    (eulerThrust_nonneg p s hva hm))

/-- One Euler step never increases the weight when the atmosphere is valid,
the time step is non-negative and the state's Mach is non-negative. -/
lemma eulerStep_w_mono (p : SimParams) (theta_trim : ℝ) (s : SimState)
    (hva : ValidAtm p.atm) (hdt : 0 ≤ p.time_step) (hm : 0 ≤ s.mach) :
    (eulerStep p theta_trim s).w ≤ s.w := by
  have key : 0 ≤ eulerFF p s * p.time_step * Grav_const :=
    mul_nonneg (mul_nonneg (eulerFF_nonneg p s hva hm) hdt)
      (by norm_num [Grav_const])
  rw [eulerStep_w, eulerDm]
  linarith [key]

lemma cas2mach_nonneg (atm : Atmos) (v h : ℝ)
    (hsos : 0 < atm.speed_of_sound h) : 0 ≤ cas2mach atm v h := by
  rw [cas2mach]
  apply roundd_nonneg
  apply div_nonneg _ (le_of_lt hsos)
  rw [cas2tas]
  exact roundd_nonneg _ (Real.sqrt_nonneg _)

lemma eulerStep_mach_nonneg (p : SimParams) (theta_trim : ℝ) (s : SimState)
    (hva : ValidAtm p.atm) : 0 ≤ (eulerStep p theta_trim s).mach := by
  obtain ⟨_, _, _, hsos, _⟩ := hva
  exact cas2mach_nonneg _ _ _ (hsos _)

/-- Every state of a `simulation_euler` run carries a non-negative Mach:
the initial one by construction, the later ones because each step recomputes
the Mach from a rounded square root divided by the speed of sound. -/
lemma eulerIter_mach_nonneg (p : SimParams) (ics : Ics) (hva : ValidAtm p.atm)
    (n : ℕ) :
    0 ≤ ((eulerStep p (eulerTrim p ics))^[n] (eulerInit p ics)).mach := by
  cases n with
  | zero =>
    obtain ⟨_, _, _, hsos, _⟩ := hva
    exact cas2mach_nonneg _ _ _ (hsos _)
  | succ m =>
    rw [Function.iterate_succ_apply']
    exact eulerStep_mach_nonneg _ _ _ hva

/-- C1 (amended): along every `simulation_euler` run over a valid
atmosphere with a non-negative time step, the weight state is non-increasing
at every step and each step changes it by `dw = (−fuel_flow·dt)·Grav_const`
(the factor 10⁻⁶ converting the mg-magnitude of `dm` into the N-magnitude of
`w`); in `simulation_descent_approach_euler` a step is non-increasing in
weight whenever its force-balance thrust is non-negative — a steep
glideslope can make that thrust negative and the weight grow (see the
counterexample). -/
theorem C1_weight_non_increasing (p : SimParams) (ics : Ics) (n : ℕ)
    (pa : AppParams) (sa : AppState)
    (hva : ValidAtm p.atm) (hdt : 0 ≤ p.time_step)
    (hthr : 0 ≤ appThrust pa sa) (hma : -1 ≤ sa.mach)
    (hdta : 0 ≤ pa.time_step) :
    ((eulerStep p (eulerTrim p ics))^[n + 1] (eulerInit p ics)).w ≤
      ((eulerStep p (eulerTrim p ics))^[n] (eulerInit p ics)).w
    ∧ ((eulerStep p (eulerTrim p ics))^[n + 1] (eulerInit p ics)).w =
      ((eulerStep p (eulerTrim p ics))^[n] (eulerInit p ics)).w +
        -eulerFF p ((eulerStep p (eulerTrim p ics))^[n] (eulerInit p ics))
          * p.time_step * Grav_const / 1000000
    ∧ (approachStep pa sa).w ≤ sa.w := by
  refine ⟨?_, ?_, ?_⟩
  · rw [Function.iterate_succ_apply']
    exact eulerStep_w_mono p _ _ hva hdt (eulerIter_mach_nonneg p ics hva n)
  · rw [Function.iterate_succ_apply', eulerStep_w, eulerDm]
  · have hff : 0 ≤ fuel_flow pa.atm (appThrust pa sa) sa.mach sa.h := by
      rw [fuel_flow]
      exact roundd_nonneg _ (mul_nonneg
        (mul_nonneg (by linarith : (0:ℝ) ≤ 11 * (1 + sa.mach)) (Real.sqrt_nonneg _))
        hthr)
    have key : 0 ≤ fuel_flow pa.atm (appThrust pa sa) sa.mach sa.h
        * pa.time_step * Grav_const :=
      mul_nonneg (mul_nonneg hff hdta) (by norm_num [Grav_const])
    show sa.w + appDm pa sa * Grav_const / 1000000 ≤ sa.w
    rw [appDm]
    linarith [key]

/-- The constant test atmosphere is a valid atmosphere. -/
lemma validAtm_std : ValidAtm stdAtmos := by
  refine ⟨fun _ => ?_, fun _ => ?_, fun _ => ?_, fun _ => ?_, fun _ => ?_⟩ <;>
    norm_num [stdAtmos]

/-- Witness for C1: weight is non-increasing across the first step of a
concrete climb run, and across a concrete approach step with non-negative
force-balance thrust. -/
theorem C1_witness :
    ((eulerStep stepParams (eulerTrim stepParams shortAppIcs))^[1]
        (eulerInit stepParams shortAppIcs)).w ≤
      ((eulerStep stepParams (eulerTrim stepParams shortAppIcs))^[0]
        (eulerInit stepParams shortAppIcs)).w
    ∧ (approachStep shortAppParams zeroAppState).w ≤ zeroAppState.w := by
  have hthr : 0 ≤ appThrust shortAppParams zeroAppState := by
    have hw : zeroAppState.w = 0 := rfl
    rw [appThrust, hw, zero_mul, add_zero, drag]
    have hcd : (0:ℝ) ≤ testAero.c_d0 + testAero.k *
        c_l_steady shortAppParams.atm
          (tas2cas shortAppParams.atm zeroAppState.v_tas zeroAppState.h)
          zeroAppState.h zeroAppState.w S ^ 2 := by
      show (0:ℝ) ≤ 0.02 + 0.02 * c_l_steady shortAppParams.atm
          (tas2cas shortAppParams.atm zeroAppState.v_tas zeroAppState.h)
          zeroAppState.h zeroAppState.w S ^ 2
      positivity
    exact mul_nonneg (mul_nonneg (mul_nonneg
      (by norm_num [shortAppParams, stdAtmos] :
        (0:ℝ) ≤ 1 / 2 * shortAppParams.atm.density zeroAppState.h)
      (by norm_num [S])) (sq_nonneg _)) hcd
  have h := C1_weight_non_increasing stepParams shortAppIcs 0 shortAppParams
    zeroAppState validAtm_std (by norm_num [stepParams]) hthr
    (by norm_num [zeroAppState]) (by norm_num [shortAppParams])
  exact ⟨h.1, h.2.2⟩

/-- Counterexample to C1 as stated: on a valid call of
`simulation_descent_approach_euler` — 70 m/s reference speed down a steep
π/6 glideslope at 2 450 000 N — the force-balance thrust of the first step
is negative (drag 122 500 N against a weight component of 1 225 000 N), the
fuel flow therefore negative, and the weight strictly increases across the
step. -/
theorem C1_counterexample :
    (appInit steepAppParams steepAppIcs).w <
      (approachStep steepAppParams (appInit steepAppParams steepAppIcs)).w := by
  have hd0 : (0:ℝ) < stdAtmos.density 0 := by norm_num [stdAtmos]
  have hp0 : (0:ℝ) < stdAtmos.pressure 0 := by norm_num [stdAtmos]
  have htas : tas2cas stdAtmos 70 1000 = 70 := by
    rw [tas2cas, tas2cas_core_const stdAtmos 70 1000 (by norm_num) rfl rfl hd0 hp0]
    exact_mod_cast roundd_intCast 2 70
  have hcas : cas2tas stdAtmos 70 1000 = 70 := by
    rw [cas2tas, cas2tas_core_const stdAtmos 70 1000 (by norm_num) rfl rfl hd0 hp0]
    exact_mod_cast roundd_intCast 2 70
  have hcl : c_l_steady stdAtmos 70 1000 2450000 S = 2 := by
    rw [c_l_steady, hcas]
    have e : (2 * 2450000 / (stdAtmos.density 1000 * S * (70:ℝ) ^ 2) : ℝ) = 2 := by
      norm_num [stdAtmos, S]
    rw [e]
    exact_mod_cast roundd_intCast 4 2
  have hdrag : drag testAero stdAtmos 70 1000 2 S = 122500 := by
    rw [drag, hcas]
    norm_num [stdAtmos, S, testAero]
  have hthrust : appThrust steepAppParams (appInit steepAppParams steepAppIcs) =
      -1102500 := by
    show drag testAero stdAtmos (tas2cas stdAtmos 70 1000) 1000
        (c_l_steady stdAtmos (tas2cas stdAtmos 70 1000) 1000 2450000 S) S
      + 2450000 * Real.sin (-(Real.pi / 6)) = -1102500
    rw [htas, hcl, hdrag, Real.sin_neg, Real.sin_pi_div_six]
    norm_num
  have hmach0 : 0 ≤ (appInit steepAppParams steepAppIcs).mach := by
    show 0 ≤ tas2mach stdAtmos 70 1000
    rw [tas2mach]
    exact roundd_nonneg _ (by norm_num [stdAtmos])
  have hff : fuel_flow stdAtmos (-1102500) (appInit steepAppParams steepAppIcs).mach
      1000 < 0 := by
    rw [fuel_flow]
    have hT : stdAtmos.temperature 1000 / stdAtmos.temperature 0 = 1 := by
      norm_num [stdAtmos]
    rw [hT, Real.sqrt_one]
    exact roundd_neg_of_le_neg_one 4 (by nlinarith [hmach0])
  have hw : (approachStep steepAppParams (appInit steepAppParams steepAppIcs)).w
      = (appInit steepAppParams steepAppIcs).w +
        -fuel_flow stdAtmos (-1102500) (appInit steepAppParams steepAppIcs).mach 1000
          * 1 * Grav_const / 1000000 := by
    show (appInit steepAppParams steepAppIcs).w +
        -fuel_flow stdAtmos
            (appThrust steepAppParams (appInit steepAppParams steepAppIcs))
            (appInit steepAppParams steepAppIcs).mach 1000
          * 1 * Grav_const / 1000000 = _
    rw [hthrust]
  rw [hw]
  have hG : Grav_const = 9.80665 := rfl
  rw [hG]
  linarith [hff]

end PerfAero
